import Mathlib

set_option maxHeartbeats 1000000

/-
Verification of the URL-shortener core: a shallow embedding of the
controllers in src/controllers/urlController.js, the mongoose schema in
src/models/urlModel.js and the helpers in src/utils/helpers.js, with the
spec's claims settled as theorems.  Timestamps are milliseconds since the
epoch (JavaScript Date.getTime()); the MongoDB collection is a list in
natural (insertion) order.
-/

namespace UrlShortener

/-- A persisted URL record, translated from `urlSchema` in
src/models/urlModel.js.  `lastAccessed` is `none` for the schema default
`null`; `validity` is in minutes. -/
structure UrlRecord where
  originalUrl : String
  shortCode : String
  validity : Nat
  expiry : Nat
  clicks : Nat
  createdAt : Nat
  lastAccessed : Option Nat
  isActive : Bool
  deriving Repr, DecidableEq

/-- The URL record store: the MongoDB collection in natural (insertion)
order; a successful save appends. -/
abbrev Store := List UrlRecord

/-- `urlSchema.methods.isExpired`: `new Date() > this.expiry`. -/
def UrlRecord.isExpired (r : UrlRecord) (now : Nat) : Bool :=
  decide (r.expiry < now)

/-- `urlSchema.methods.isValidForRedirect`: `this.isActive && !this.isExpired()`. -/
def UrlRecord.isValidForRedirect (r : UrlRecord) (now : Nat) : Bool :=
  r.isActive && !(r.isExpired now)

/-- The `timeRemaining` virtual: 0 when expired, else `expiry - Date.now()`
(the `Math.max(0, _)` is natural-number truncation here). -/
def UrlRecord.timeRemaining (r : UrlRecord) (now : Nat) : Nat :=
  if r.isExpired now then 0 else r.expiry - now

/-- `urlSchema.methods.incrementClicks`: `clicks += 1`,
`lastAccessed = new Date()`, then `save()`. -/
def UrlRecord.withClick (r : UrlRecord) (now : Nat) : UrlRecord :=
  ⟨r.originalUrl, r.shortCode, r.validity, r.expiry, r.clicks + 1, r.createdAt,
    some now, r.isActive⟩

/-- The record with its `isActive` field replaced (the only update issued by
`updateUrlStatus`). -/
def UrlRecord.withIsActive (r : UrlRecord) (b : Bool) : UrlRecord :=
  ⟨r.originalUrl, r.shortCode, r.validity, r.expiry, r.clicks, r.createdAt,
    r.lastAccessed, b⟩

/-- The filter shapes this codebase passes to mongoose find-family queries:
equality on `shortCode`, equality on `originalUrl`, `expiry: \x7b $gt: t \x7d`,
and an explicit equality on `isActive`.  A `none` field means the filter does
not mention that field. -/
structure Query where
  shortCode : Option String
  originalUrl : Option String
  expiryGt : Option Nat
  isActive : Option Bool

/-- Whether a record matches the filter conditions as written (no middleware). -/
def queryMatches (q : Query) (r : UrlRecord) : Bool :=
  (match q.shortCode with | some c => r.shortCode == c | none => true) &&
  (match q.originalUrl with | some u => r.originalUrl == u | none => true) &&
  (match q.expiryGt with | some t => decide (t < r.expiry) | none => true) &&
  (match q.isActive with | some b => r.isActive == b | none => true)

/-- The schema-level `urlSchema.pre(/^find/)` middleware: when the query does
not mention `isActive`, it injects `isActive: \x7b $ne: false \x7d`.  Queries
that already carry an `isActive` condition are left alone. -/
def hookedMatches (q : Query) (r : UrlRecord) : Bool :=
  queryMatches q r && (q.isActive.isSome || r.isActive != false)

/-- `Model.findOne`: first match in natural order, after the pre-find hook. -/
def findOne (q : Query) (s : Store) : Option UrlRecord :=
  s.find? (hookedMatches q)

/-- `Model.find`: all matches in natural order, after the pre-find hook. -/
def findMany (q : Query) (s : Store) : Store :=
  s.filter (hookedMatches q)

/-- `Model.countDocuments`: the operation name does not match the
`pre(/^find/)` regex, so the inactive-record filter is NOT injected. -/
def countDocuments (q : Query) (s : Store) : Nat :=
  (s.filter (queryMatches q)).length

/-- `urlSchema.statics.findByShortCode`:
`findOne(\x7b shortCode, isActive: true \x7d)` — the explicit `isActive`
condition disables the hook injection but restricts to active records. -/
def findByShortCode (code : String) (s : Store) : Option UrlRecord :=
  findOne ⟨some code, none, none, some true⟩ s

/-- `Model.findOneAndDelete`: remove the first (hooked) match, returning it. -/
def findOneAndDelete (q : Query) (s : Store) : Option UrlRecord × Store :=
  match s with
  | [] => (none, [])
  | r :: rest =>
    if hookedMatches q r then (some r, rest)
    else
      let res := findOneAndDelete q rest
      (res.1, r :: res.2)

/-- `Model.findOneAndUpdate(filter, \x7b isActive \x7d, \x7b new: true \x7d)`:
update the first (hooked) match's `isActive` and return the updated record. -/
def findOneAndUpdateIsActive (q : Query) (b : Bool) (s : Store) :
    Option UrlRecord × Store :=
  match s with
  | [] => (none, [])
  | r :: rest =>
    if hookedMatches q r then (some (r.withIsActive b), r.withIsActive b :: rest)
    else
      let res := findOneAndUpdateIsActive q b rest
      (res.1, r :: res.2)

/-- Persisting `url.incrementClicks()`: the fetched document is saved back;
under the unique `shortCode` index the document is identified by its code. -/
def saveClick (now : Nat) (code : String) (s : Store) : Store :=
  s.map (fun r => if r.shortCode == code then r.withClick now else r)

/-- The uniqueness invariant maintained by the unique index on `shortCode`. -/
def codesUnique (s : Store) : Prop :=
  (s.map (fun r => r.shortCode)).Nodup

instance (s : Store) : Decidable (codesUnique s) := by
  unfold codesUnique; infer_instance

/-! Helpers from src/utils/helpers.js. -/

/-- Characters removed by JavaScript `String.prototype.trim` (the WhiteSpace
and LineTerminator code points in use). -/
def isJsWhitespace (c : Char) : Bool :=
  c == ' ' || c == '\t' || c == '\n' || c == '\r' ||
  c == Char.ofNat 11 || c == Char.ofNat 12 || c == Char.ofNat 0xA0 ||
  c == Char.ofNat 0x2028 || c == Char.ofNat 0x2029 || c == Char.ofNat 0xFEFF

/-- JavaScript `url.trim()`: strip leading and trailing whitespace. -/
def jsTrim (s : String) : String :=
  String.mk (((s.data.dropWhile isJsWhitespace).reverse.dropWhile
    isJsWhitespace).reverse)

/-- Character-list implementation of `String.startsWith` (the core function
does not reduce inside the kernel). -/
def listStartsWith : List Char → List Char → Bool
  | _, [] => true
  | [], _ :: _ => false
  | c :: cs, p :: ps => c == p && listStartsWith cs ps

/-- `String.startsWith` over the underlying character lists. -/
def strStartsWith (s pat : String) : Bool :=
  listStartsWith s.data pat.data

/-- `String.toLower`, via per-character lowercasing. -/
def strToLower (s : String) : String :=
  String.mk (s.data.map Char.toLower)

/-- The test `/^https?:\/\//i.test(url)` used by `sanitizeUrl`
(ASCII case-insensitive scheme match). -/
def startsWithHttpScheme (s : String) : Bool :=
  strStartsWith (strToLower s) "http://" || strStartsWith (strToLower s) "https://"

/-- `sanitizeUrl`: empty or missing input gives `""`; otherwise trim
whitespace and prepend `"http://"` when no http/https scheme is present. -/
def sanitizeUrl (url : String) : String :=
  if url == "" then ""
  else
    let t := jsTrim url
    if startsWithHttpScheme t then t else "http://" ++ t

/-- `isValidUrl` calls the WHATWG `new URL(string)` host API and checks the
protocol is http/https.  Modelled as: an ASCII case-insensitive http(s)
scheme followed by a nonempty remainder (the parser rejects an empty host). -/
def isValidUrl (s : String) : Bool :=
  (strStartsWith (strToLower s) "http://" && decide (7 < s.length)) ||
  (strStartsWith (strToLower s) "https://" && decide (8 < s.length))

/-- The character class `[a-zA-Z0-9_-]` of `isValidShortCode`. -/
def isCodeChar (c : Char) : Bool :=
  c.isAlpha || c.isDigit || c == '_' || c == '-'

/-- `isValidShortCode`: a nonempty string of code characters, length 3..20. -/
def isValidShortCode (code : String) : Bool :=
  code != "" && code.data.all isCodeChar &&
  decide (3 ≤ code.length) && decide (code.length ≤ 20)

/-- `calculateExpiryDate`: now plus the validity in minutes, in ms. -/
def calculateExpiryDate (now : Nat) (validityInMinutes : Nat) : Nat :=
  now + validityInMinutes * 60000

/-- `generateShortUrl(req, shortCode)`; `base` models the request-derived
scheme-and-host prefix. -/
def generateShortUrl (base : String) (shortCode : String) : String :=
  base ++ "/" ++ shortCode

/-- The `POST /shorten` request body.  `validity` is modelled as an optional
natural number of minutes (the validated JSON numbers). -/
structure ShortenBody where
  url : Option String
  validity : Option Nat
  shortcode : Option String
  deriving Repr, DecidableEq

/-- The result shape of `validateShortenRequest`. -/
structure ValidationOutcome where
  isValid : Bool
  errors : List String
  deriving Repr, DecidableEq

/-- `validateShortenRequest` from the utils: URL required and valid after
sanitization, validity in 1..525600 when given, custom shortcode
format-checked when given. -/
def validateShortenRequest (body : ShortenBody) : ValidationOutcome :=
  let urlErrors :=
    match body.url with
    | none => ["URL is required"]
    | some u =>
      if u == "" then ["URL is required"]
      else if !isValidUrl (sanitizeUrl u) then ["Please provide a valid URL"]
      else []
  let validityErrors :=
    match body.validity with
    | none => []
    | some v =>
      if v < 1 || 525600 < v then
        ["Validity must be between 1 and 525600 minutes"]
      else []
  let codeErrors :=
    match body.shortcode with
    | none => []
    | some c =>
      if !isValidShortCode c then
        ["Custom shortcode must be 3-20 characters long"]
      else []
  let errors := urlErrors ++ validityErrors ++ codeErrors
  ⟨errors.isEmpty, errors⟩

/-! The mongoose save path and the shortening controller. -/

/-- The `originalUrl` schema validator `/^https?:\/\/.+/` (case sensitive,
unlike the sanitizer's test). -/
def schemaUrlOk (u : String) : Bool :=
  (strStartsWith u "http://" && decide (7 < u.length)) ||
  (strStartsWith u "https://" && decide (8 < u.length))

/-- The document validators of `urlSchema` that `save()` runs: the
`originalUrl` pattern and maxlength, the `shortCode` length bounds and the
`validity` range. -/
def schemaValidates (r : UrlRecord) : Bool :=
  schemaUrlOk r.originalUrl && decide (r.originalUrl.length ≤ 2048) &&
  decide (3 ≤ r.shortCode.length) && decide (r.shortCode.length ≤ 20) &&
  decide (1 ≤ r.validity) && decide (r.validity ≤ 525600)

/-- The errors `save()` can surface: a mongoose ValidationError, or the
duplicate-key error (code 11000) from the unique index on `shortCode`. -/
inductive SaveError where
  | validationFailed
  | duplicateKey
  deriving Repr, DecidableEq

/-- `new Url(...).save()`: document validation first, then the insert, which
the unique index rejects when any stored record already holds the code. -/
def saveRecord (r : UrlRecord) (s : Store) : Except SaveError Store :=
  if !schemaValidates r then .error .validationFailed
  else if s.any (fun x => x.shortCode == r.shortCode) then .error .duplicateKey
  else .ok (s ++ [r])

/-- The outcomes of the `createShortUrl` controller, one constructor per
response branch (HTTP status in the comment). -/
inductive ShortenResult where
  | validationError (errors : List String)
  | dedup (shortLink : String) (expiry : Nat)
  | customCodeConflict
  | generationExhausted
  | duplicateKey
  | schemaError
  | created (shortCode : String) (originalUrl : String) (expiry : Nat)
      (validity : Nat)
  deriving Repr, DecidableEq

/-- `validity || process.env.DEFAULT_VALIDITY_MINUTES || 30` with the
environment default unset: the body's validity, else 30 minutes. -/
def bodyValidity (body : ShortenBody) : Nat :=
  body.validity.getD 30

/-- The document handed to `new Url(...)` by `createShortUrl`: sanitized URL,
chosen code, validity and computed expiry; schema defaults fill the rest
(`clicks` 0, `lastAccessed` null, `isActive` true). -/
def newUrlRecord (now : Nat) (body : ShortenBody) (shortCode : String) :
    UrlRecord :=
  ⟨sanitizeUrl (body.url.getD ""), shortCode, bodyValidity body,
    calculateExpiryDate now (bodyValidity body), 0, now, none, true⟩

/-- Build and `save()` the new document, mapping mongoose errors to the
controller's catch branches (11000 to the 409 response, ValidationError to
the 400 response). -/
def persistNewUrl (now : Nat) (body : ShortenBody) (shortCode : String)
    (s : Store) : ShortenResult × Store :=
  match saveRecord (newUrlRecord now body shortCode) s with
  | .error .duplicateKey => (.duplicateKey, s)
  | .error .validationFailed => (.schemaError, s)
  | .ok s' =>
    (.created shortCode (sanitizeUrl (body.url.getD ""))
      (calculateExpiryDate now (bodyValidity body)) (bodyValidity body), s')

/-- One pass of the do/while retry loop in `createShortUrl`, fuelled: the
iteration with counter `attempts` generates candidate `gen (attempts + 1)`
(attempts are 1-based), throws once `attempts >= maxAttempts` (10), and
otherwise repeats while an active record holds the candidate.  `none` models
the thrown generation error. -/
def generateUniqueCodeGo (gen : Nat → String) (s : Store) :
    Nat → Nat → Option String
  | _, 0 => none
  | attempts, fuel + 1 =>
    let code := gen (attempts + 1)
    if attempts + 1 ≥ 10 then none
    else if (findByShortCode code s).isSome then
      generateUniqueCodeGo gen s (attempts + 1) fuel
    else some code

/-- The full retry loop, started with `attempts = 0`; ten units of fuel cover
the ten possible iterations. -/
def generateUniqueCode (gen : Nat → String) (s : Store) : Option String :=
  generateUniqueCodeGo gen s 0 10

/-- The no-custom-code path: retry-bounded generation, then persist; the
thrown exhaustion error surfaces as the 500 response with the store intact. -/
def createShortUrlGenerate (now : Nat) (gen : Nat → String)
    (body : ShortenBody) (s : Store) : ShortenResult × Store :=
  match generateUniqueCode gen s with
  | none => (.generationExhausted, s)
  | some code => persistNewUrl now body code s

/-- The creation path of `createShortUrl` after the dedup check: a truthy
custom shortcode is conflict-checked against `findByShortCode` and
`isValidForRedirect`, otherwise a code is generated. -/
def createShortUrlCreate (now : Nat) (gen : Nat → String) (body : ShortenBody)
    (s : Store) : ShortenResult × Store :=
  match body.shortcode with
  | some sc =>
    if sc == "" then createShortUrlGenerate now gen body s
    else
      match findByShortCode sc s with
      | some codeExists =>
        if codeExists.isValidForRedirect now then (.customCodeConflict, s)
        else persistNewUrl now body sc s
      | none => persistNewUrl now body sc s
  | none => createShortUrlGenerate now gen body s

/-- The `POST /shorten` controller `createShortUrl`: validate, sanitize,
dedup by original URL (a hooked `findOne`, so inactive records are ignored),
then the creation path.  `gen` models the nanoid-backed `generateShortCode`
(one candidate per attempt); `base` models the request's scheme and host. -/
def createShortUrl (now : Nat) (gen : Nat → String) (base : String)
    (body : ShortenBody) (s : Store) : ShortenResult × Store :=
  if !(validateShortenRequest body).isValid then
    (.validationError (validateShortenRequest body).errors, s)
  else
    match findOne ⟨none, some (sanitizeUrl (body.url.getD "")), none, none⟩ s with
    | some existingUrl =>
      if existingUrl.isValidForRedirect now then
        (.dedup (generateShortUrl base existingUrl.shortCode)
          existingUrl.expiry, s)
      else createShortUrlCreate now gen body s
    | none => createShortUrlCreate now gen body s

/-! The redirection, stats and admin controllers. -/

/-- The outcomes of `redirectToUrl` (301 redirect, 404, 410 expired with its
`expiredAt`, 410 inactive). -/
inductive RedirectResult where
  | redirect (status : Nat) (originalUrl : String)
  | notFound
  | expired (expiredAt : Nat)
  | inactive
  deriving Repr, DecidableEq

/-- The `GET /:shortCode` controller `redirectToUrl`: look up via
`findByShortCode` (active records only), then the expiry check, the activity
check, and `incrementClicks` before the 301 redirect. -/
def redirectToUrl (now : Nat) (shortCode : String) (s : Store) :
    RedirectResult × Store :=
  match findByShortCode shortCode s with
  | none => (.notFound, s)
  | some url =>
    if url.isExpired now then (.expired url.expiry, s)
    else if !url.isActive then (.inactive, s)
    else (.redirect 301 url.originalUrl, saveClick now url.shortCode s)

/-- The JSON payload of `getUrlStats`: the record's fields plus the derived
`isExpired` and `timeRemaining`. -/
structure UrlStats where
  shortCode : String
  originalUrl : String
  clicks : Nat
  validity : Nat
  expiry : Nat
  isExpired : Bool
  isActive : Bool
  createdAt : Nat
  lastAccessed : Option Nat
  timeRemaining : Nat
  deriving Repr, DecidableEq

/-- The `GET /api/stats/:shortCode` controller `getUrlStats`; it also looks
up via `findByShortCode`, and `none` is the 404 branch. -/
def getUrlStats (now : Nat) (shortCode : String) (s : Store) :
    Option UrlStats :=
  match findByShortCode shortCode s with
  | none => none
  | some url =>
    some ⟨url.shortCode, url.originalUrl, url.clicks, url.validity, url.expiry,
      url.isExpired now, url.isActive, url.createdAt, url.lastAccessed,
      url.timeRemaining now⟩

/-- Insertion step of the sort used to model `Query.sort`. -/
def insertSorted (le : UrlRecord → UrlRecord → Bool) (x : UrlRecord) :
    Store → Store
  | [] => [x]
  | y :: ys => if le x y then x :: y :: ys else y :: insertSorted le x ys

/-- The sort applied by `Url.find(query).sort(sort)`, for the comparator
built from `sortBy`/`sortOrder`. -/
def sortStore (le : UrlRecord → UrlRecord → Bool) : Store → Store
  | [] => []
  | x :: xs => insertSorted le x (sortStore le xs)

/-- The pagination block of the `getAllUrls` response. -/
structure PageInfo where
  currentPage : Nat
  totalPages : Nat
  totalItems : Nat
  itemsPerPage : Nat
  hasNextPage : Bool
  hasPrevPage : Bool
  deriving Repr, DecidableEq

/-- The `getAllUrls` response: a page of records plus pagination metadata. -/
structure UrlsPage where
  urls : Store
  pagination : PageInfo
  deriving Repr, DecidableEq

/-- The `GET /api/urls` controller `getAllUrls`.  The query adds
`expiry: \x7b $gt: new Date() \x7d` unless `includeExpired`; the dynamic
`sort[sortBy] = sortOrder` object is modelled by the comparator `le`.  The
`Url.find` runs through the pre-find hook while `Url.countDocuments`
does not. -/
def getAllUrls (now : Nat) (page limit : Nat)
    (le : UrlRecord → UrlRecord → Bool) (includeExpired : Bool) (s : Store) :
    UrlsPage :=
  let query : Query :=
    if includeExpired then ⟨none, none, none, none⟩
    else ⟨none, none, some now, none⟩
  let urls :=
    ((sortStore le (findMany query s)).drop ((page - 1) * limit)).take limit
  let total := countDocuments query s
  let totalPages := (total + limit - 1) / limit
  ⟨urls, ⟨page, totalPages, total, limit,
    decide (page < totalPages), decide (1 < page)⟩⟩

/-- The deleted-record summary returned by `deleteUrl`. -/
structure DeletedSummary where
  shortCode : String
  originalUrl : String
  createdAt : Nat
  clicks : Nat
  deriving Repr, DecidableEq

/-- The outcomes of `deleteUrl` (200 with summary, or 404). -/
inductive DeleteResult where
  | ok (deletedUrl : DeletedSummary)
  | notFound
  deriving Repr, DecidableEq

/-- The `DELETE /api/urls/:shortCode` controller `deleteUrl`:
`findOneAndDelete(+ shortCode +)` is a find-family operation, so the
pre-find hook injects the inactive-record filter into it. -/
def deleteUrl (shortCode : String) (s : Store) : DeleteResult × Store :=
  match findOneAndDelete ⟨some shortCode, none, none, none⟩ s with
  | (none, _) => (.notFound, s)
  | (some r, s') =>
    (.ok ⟨r.shortCode, r.originalUrl, r.createdAt, r.clicks⟩, s')

/-- A JSON value as far as `typeof isActive !== "boolean"` needs it. -/
inductive JsValue where
  | bool (b : Bool)
  | num (n : Int)
  | str (s : String)
  | null
  | undef
  deriving Repr, DecidableEq

/-- The record view returned by `updateUrlStatus`. -/
structure StatusView where
  shortCode : String
  originalUrl : String
  isActive : Bool
  deriving Repr, DecidableEq

/-- The outcomes of `updateUrlStatus` (200, 400 non-boolean, 404). -/
inductive UpdateStatusResult where
  | ok (url : StatusView)
  | validationError
  | notFound
  deriving Repr, DecidableEq

/-- The `PATCH /api/urls/:shortCode/status` controller `updateUrlStatus`: the
non-boolean guard, then `findOneAndUpdate` on the bare shortCode filter —
another find-family operation subject to the pre-find hook. -/
def updateUrlStatus (shortCode : String) (isActive : JsValue) (s : Store) :
    UpdateStatusResult × Store :=
  match isActive with
  | .bool b =>
    match findOneAndUpdateIsActive ⟨some shortCode, none, none, none⟩ b s with
    | (none, _) => (.notFound, s)
    | (some r, s') => (.ok ⟨r.shortCode, r.originalUrl, r.isActive⟩, s')
  | _ => (.validationError, s)

/-! Supporting lemmas about the store primitives. -/

/-- On the bare shortCode filter, the pre-find hook makes matching equal to
"same code and not inactive". -/
lemma hookedMatches_codeOnly (code : String) (r : UrlRecord) :
    hookedMatches ⟨some code, none, none, none⟩ r =
      (r.shortCode == code && r.isActive) := by
  cases h : r.isActive <;> simp [hookedMatches, queryMatches, h]

/-- On the `findByShortCode` filter, matching is "same code and active". -/
lemma hookedMatches_byCode (code : String) (r : UrlRecord) :
    hookedMatches ⟨some code, none, none, some true⟩ r =
      (r.shortCode == code && r.isActive) := by
  cases h : r.isActive <;> simp [hookedMatches, queryMatches, h]

/-- On the dedup filter, the hook makes matching equal to "same original URL
and not inactive". -/
lemma hookedMatches_byUrl (u : String) (r : UrlRecord) :
    hookedMatches ⟨none, some u, none, none⟩ r =
      (r.originalUrl == u && r.isActive) := by
  cases h : r.isActive <;> simp [hookedMatches, queryMatches, h]

lemma findByShortCode_eq_none (code : String) (s : Store) :
    findByShortCode code s = none ↔
      ∀ r ∈ s, (r.shortCode == code && r.isActive) = false := by
  simp [findByShortCode, findOne, List.find?_eq_none, hookedMatches_byCode]

lemma findByShortCode_eq_some (code : String) (s : Store) (r : UrlRecord)
    (h : findByShortCode code s = some r) :
    r ∈ s ∧ r.shortCode = code ∧ r.isActive = true := by
  have hm := List.mem_of_find?_eq_some h
  have hp := List.find?_some h
  rw [hookedMatches_byCode] at hp
  simp only [Bool.and_eq_true, beq_iff_eq] at hp
  exact ⟨hm, hp.1, hp.2⟩

lemma findByShortCode_isSome (code : String) (s : Store) (r : UrlRecord)
    (hr : r ∈ s) (hc : r.shortCode = code) (ha : r.isActive = true) :
    (findByShortCode code s).isSome := by
  unfold findByShortCode findOne
  rw [List.find?_isSome]
  exact ⟨r, hr, by simp [hookedMatches_byCode, hc, ha]⟩

lemma findOneAndUpdateIsActive_none (q : Query) (b : Bool) (s : Store)
    (h : ∀ r ∈ s, hookedMatches q r = false) :
    findOneAndUpdateIsActive q b s = (none, s) := by
  induction s with
  | nil => rfl
  | cons y ys ih =>
    have hy := h y (by simp)
    simp only [findOneAndUpdateIsActive, hy, Bool.false_eq_true, if_false,
      ih (fun r hr => h r (by simp [hr]))]

lemma findOneAndUpdateIsActive_found (q : Query) (b : Bool) (s : Store)
    (hex : ∃ r ∈ s, hookedMatches q r = true) :
    ∃ r s', findOneAndUpdateIsActive q b s = (some (r.withIsActive b), s') ∧
      r ∈ s ∧ hookedMatches q r = true := by
  induction s with
  | nil => simp at hex
  | cons y ys ih =>
    by_cases hy : hookedMatches q y = true
    · exact ⟨y, y.withIsActive b :: ys,
        by simp [findOneAndUpdateIsActive, hy], by simp, hy⟩
    · obtain ⟨r, hr, hm⟩ := hex
      rcases List.mem_cons.mp hr with rfl | hr'
      · exact absurd hm hy
      · obtain ⟨r', s', heq, hrmem, hm'⟩ := ih ⟨r, hr', hm⟩
        refine ⟨r', y :: s', ?_, ?_, hm'⟩
        · simp only [findOneAndUpdateIsActive, hy, Bool.false_eq_true,
            if_false, heq]
        · simp [hrmem]

lemma findOneAndDelete_none (q : Query) (s : Store)
    (h : ∀ r ∈ s, hookedMatches q r = false) :
    findOneAndDelete q s = (none, s) := by
  induction s with
  | nil => rfl
  | cons y ys ih =>
    have hy := h y (by simp)
    simp only [findOneAndDelete, hy, Bool.false_eq_true, if_false,
      ih (fun r hr => h r (by simp [hr]))]

lemma findOneAndDelete_found (q : Query) (s : Store)
    (hex : ∃ r ∈ s, hookedMatches q r = true) :
    ∃ r s', findOneAndDelete q s = (some r, s') ∧ r ∈ s ∧
      hookedMatches q r = true ∧ s'.length + 1 = s.length := by
  induction s with
  | nil => simp at hex
  | cons y ys ih =>
    by_cases hy : hookedMatches q y = true
    · exact ⟨y, ys, by simp [findOneAndDelete, hy], by simp, hy, by simp⟩
    · obtain ⟨r, hr, hm⟩ := hex
      rcases List.mem_cons.mp hr with rfl | hr'
      · exact absurd hm hy
      · obtain ⟨r', s', heq, hrmem, hm', hlen⟩ := ih ⟨r, hr', hm⟩
        refine ⟨r', y :: s', ?_, by simp [hrmem], hm', by simp [← hlen]⟩
        simp only [findOneAndDelete, hy, Bool.false_eq_true, if_false, heq]

/-- After `findOneAndUpdate` deactivates the record holding a code, no record
of the resulting store is an active holder of that code (unique codes). -/
lemma findOneAndUpdateIsActive_deactivated (code : String) (s : Store)
    (hU : codesUnique s) (r : UrlRecord) (s' : Store)
    (h : findOneAndUpdateIsActive ⟨some code, none, none, none⟩ false s =
      (some r, s')) :
    ∀ x ∈ s', (x.shortCode == code && x.isActive) = false := by
  induction s generalizing s' with
  | nil => simp [findOneAndUpdateIsActive] at h
  | cons y ys ih =>
    have hUtail : codesUnique ys := (List.nodup_cons.mp hU).2
    have hUhead : y.shortCode ∉ ys.map (fun r => r.shortCode) :=
      (List.nodup_cons.mp hU).1
    by_cases hy : hookedMatches ⟨some code, none, none, none⟩ y = true
    · have hcode : y.shortCode = code := by
        simp only [hookedMatches_codeOnly, Bool.and_eq_true, beq_iff_eq] at hy
        exact hy.1
      simp only [findOneAndUpdateIsActive, hy, if_true, Prod.mk.injEq] at h
      intro x hx
      rw [← h.2] at hx
      rcases List.mem_cons.mp hx with rfl | hx'
      · simp [UrlRecord.withIsActive]
      · by_cases hxc : x.shortCode == code
        · exfalso
          apply hUhead
          rw [hcode, ← beq_iff_eq.mp hxc]
          exact List.mem_map.mpr ⟨x, hx', rfl⟩
        · simp [hxc]
    · simp only [findOneAndUpdateIsActive, hy, Bool.false_eq_true, if_false,
        Prod.mk.injEq] at h
      intro x hx
      rw [← h.2] at hx
      rcases List.mem_cons.mp hx with rfl | hx'
      · rw [← hookedMatches_codeOnly code x]
        exact Bool.not_eq_true _ ▸ eq_false_of_ne_true hy
      · exact ih hUtail _ (Prod.ext h.1 rfl) x hx'

/-! Facts extracted from a passing `validateShortenRequest`. -/

lemma validate_url_ok (body : ShortenBody) (u : String)
    (hu : body.url = some u)
    (h : (validateShortenRequest body).isValid = true) :
    u ≠ "" ∧ isValidUrl (sanitizeUrl u) = true := by
  simp only [validateShortenRequest, hu, List.isEmpty_eq_true,
    List.append_eq_nil] at h
  by_cases h0 : u = ""
  · simp [h0] at h
  · refine ⟨h0, ?_⟩
    by_cases h1 : isValidUrl (sanitizeUrl u) = true
    · exact h1
    · simp [h0, h1] at h

lemma validate_validity_ok (body : ShortenBody)
    (h : (validateShortenRequest body).isValid = true) :
    1 ≤ bodyValidity body ∧ bodyValidity body ≤ 525600 := by
  cases hv : body.validity with
  | none => simp [bodyValidity, hv]
  | some v =>
    simp only [validateShortenRequest, hv, List.isEmpty_eq_true,
      List.append_eq_nil] at h
    obtain ⟨⟨-, hval⟩, -⟩ := h
    simp only [bodyValidity, hv, Option.getD_some]
    by_cases hcond : (decide (v < 1) || decide (525600 < v)) = true
    · rw [if_pos hcond] at hval
      simp at hval
    · simp only [Bool.or_eq_true, decide_eq_true_eq, not_or] at hcond
      omega

lemma validate_shortcode_ok (body : ShortenBody) (sc : String)
    (hsc : body.shortcode = some sc)
    (h : (validateShortenRequest body).isValid = true) :
    isValidShortCode sc = true := by
  simp only [validateShortenRequest, hsc, List.isEmpty_eq_true,
    List.append_eq_nil] at h
  by_cases hc : isValidShortCode sc = true
  · exact hc
  · simp [hc] at h

lemma isValidShortCode_length (sc : String)
    (h : isValidShortCode sc = true) :
    3 ≤ sc.length ∧ sc.length ≤ 20 := by
  simp only [isValidShortCode, Bool.and_eq_true, decide_eq_true_eq] at h
  exact ⟨h.1.2, h.2⟩

lemma schemaValidates_newUrlRecord (now : Nat) (body : ShortenBody)
    (sc : String)
    (hurl : schemaUrlOk (sanitizeUrl (body.url.getD "")) = true)
    (hlen : (sanitizeUrl (body.url.getD "")).length ≤ 2048)
    (hsc3 : 3 ≤ sc.length) (hsc20 : sc.length ≤ 20)
    (hv : (validateShortenRequest body).isValid = true) :
    schemaValidates (newUrlRecord now body sc) = true := by
  obtain ⟨h1, h2⟩ := validate_validity_ok body hv
  simp [schemaValidates, newUrlRecord, hurl, hlen, hsc3, hsc20, h1, h2]

/-! Facts about the generation retry loop. -/

/-- A code that the retry loop returns never collides with an active record:
the loop exits only when `findByShortCode` comes back empty. -/
lemma generateUniqueCodeGo_fresh (gen : Nat → String) (s : Store) :
    ∀ f a c, generateUniqueCodeGo gen s a f = some c →
      findByShortCode c s = none := by
  intro f
  induction f with
  | zero => intro a c h; simp [generateUniqueCodeGo] at h
  | succ f ih =>
    intro a c h
    simp only [generateUniqueCodeGo] at h
    by_cases h10 : a + 1 ≥ 10
    · simp [h10] at h
    · rw [if_neg h10] at h
      by_cases hcol : (findByShortCode (gen (a + 1)) s).isSome
      · rw [if_pos hcol] at h
        exact ih _ _ h
      · rw [if_neg hcol] at h
        obtain rfl : gen (a + 1) = c := Option.some.inj h
        exact Option.not_isSome_iff_eq_none.mp hcol

/-- The retry loop inspects at most its first ten candidates: generators that
agree on attempts 1..10 produce the same outcome. -/
lemma generateUniqueCodeGo_congr (gen gen' : Nat → String) (s : Store)
    (hg : ∀ i, 1 ≤ i → i ≤ 10 → gen i = gen' i) :
    ∀ f a, a + f = 10 →
      generateUniqueCodeGo gen s a f = generateUniqueCodeGo gen' s a f := by
  intro f
  induction f with
  | zero => intro a _; rfl
  | succ f ih =>
    intro a ha
    have hgi : gen (a + 1) = gen' (a + 1) :=
      hg (a + 1) (by omega) (by omega)
    simp only [generateUniqueCodeGo, hgi]
    by_cases h10 : a + 1 ≥ 10
    · simp [h10]
    · rw [if_neg h10, if_neg h10]
      by_cases hcol : (findByShortCode (gen' (a + 1)) s).isSome
      · rw [if_pos hcol, if_pos hcol]
        exact ih (a + 1) (by omega)
      · rw [if_neg hcol, if_neg hcol]

/-! Example stores shared by the claim theorems below. -/

/-- One active, unexpired-at-1000 record under code "abc". -/
def exActiveStore : Store :=
  [⟨"http://a.com", "abc", 30, 5000, 0, 0, none, true⟩]

/-- One inactive record under code "abc" (unexpired at time 1000). -/
def inactiveStore : Store :=
  [⟨"http://a.com", "abc", 30, 5000, 0, 0, none, false⟩]

/-- One active but expired-at-1000 record under code "old01". -/
def expiredActiveStore : Store :=
  [⟨"http://old.com", "old01", 30, 100, 2, 0, some 50, true⟩]

/-! Claim C1. -/

/-- Claim C1 as stated is false: deactivate the active record under "abc",
and `stats("abc")` answers not-found even though the record is still stored —
`getUrlStats` reads through `findByShortCode`, whose `isActive: true` filter
hides inactive records, so stats does NOT bypass the active-only filter. -/
theorem C1_counterexample :
    getUrlStats 1000 "abc"
      (updateUrlStatus "abc" (.bool false) exActiveStore).2 = none ∧
    ((updateUrlStatus "abc" (.bool false) exActiveStore).2).any
      (fun r => r.shortCode == "abc") = true := by decide

/-- Claim C1 (amended): after `setActive(code, false)` succeeds, `resolve(code)`
yields not-found, and `stats(code)` ALSO yields not-found: deactivation hides
the record from redirection and stats alike, because both read through
`findByShortCode`'s active-only filter (stats is unaffected by expiry, not by
activity). -/
theorem C1_deactivation_hides_record (now : Nat) (code : String) (s : Store)
    (hU : codesUnique s) (rv : StatusView) (s' : Store)
    (h : updateUrlStatus code (.bool false) s = (.ok rv, s')) :
    redirectToUrl now code s' = (.notFound, s') ∧
    getUrlStats now code s' = none := by
  have hnone : findByShortCode code s' = none := by
    rw [findByShortCode_eq_none]
    rcases hfu : findOneAndUpdateIsActive ⟨some code, none, none, none⟩ false s
      with ⟨found, s2⟩
    simp only [updateUrlStatus, hfu] at h
    cases found with
    | none => simp at h
    | some r =>
      simp only [Prod.mk.injEq, UpdateStatusResult.ok.injEq] at h
      intro x hx
      exact findOneAndUpdateIsActive_deactivated code s hU r s2 hfu x
        (by rw [h.2]; exact hx)
  exact ⟨by simp only [redirectToUrl, hnone], by simp only [getUrlStats, hnone]⟩

theorem C1_witness :
    redirectToUrl 1000 "abc" inactiveStore = (.notFound, inactiveStore) ∧
    getUrlStats 1000 "abc" inactiveStore = none :=
  C1_deactivation_hides_record 1000 "abc" exActiveStore (by decide)
    ⟨"abc", "http://a.com", false⟩ inactiveStore (by decide)

/-! Claim C2. -/

/-- Claim C2 as stated is false: a record with code "abc" IS stored, yet
`setActive("abc", true)` answers not-found — the pre-find hook hides the
inactive record from `findOneAndUpdate`, so not-found does not mean "no
record with that shortCode exists". -/
theorem C2_counterexample :
    updateUrlStatus "abc" (.bool true) inactiveStore =
      (.notFound, inactiveStore) ∧
    inactiveStore.any (fun r => r.shortCode == "abc") = true := by decide

/-- Claim C2 (amended): `setActive` rejects non-boolean input as a validation
error; when an ACTIVE record holds the code it updates `isActive` to `b` and
returns the updated record; and it answers not-found whenever no active
record holds the code — in particular also when an inactive record does, so
deactivation cannot be reversed through this endpoint. -/
theorem C2_setActive_spec (s : Store) (code : String) (b : Bool) (v : JsValue)
    (hv : ∀ b', v ≠ JsValue.bool b') :
    (updateUrlStatus code v s = (.validationError, s)) ∧
    ((∃ r ∈ s, r.shortCode = code ∧ r.isActive = true) →
      ∃ rv s', updateUrlStatus code (.bool b) s = (.ok rv, s') ∧
        rv.shortCode = code ∧ rv.isActive = b) ∧
    ((∀ r ∈ s, ¬(r.shortCode = code ∧ r.isActive = true)) →
      updateUrlStatus code (.bool b) s = (.notFound, s)) := by
  refine ⟨?_, ?_, ?_⟩
  · cases v with
    | bool b' => exact absurd rfl (hv b')
    | num n => rfl
    | str sv => rfl
    | null => rfl
    | undef => rfl
  · rintro ⟨r, hr, hc, ha⟩
    obtain ⟨r', s', heq, hrm, hm⟩ := findOneAndUpdateIsActive_found
      ⟨some code, none, none, none⟩ b s
      ⟨r, hr, by simp [hookedMatches_codeOnly, hc, ha]⟩
    simp only [hookedMatches_codeOnly, Bool.and_eq_true, beq_iff_eq] at hm
    refine ⟨⟨(r'.withIsActive b).shortCode, (r'.withIsActive b).originalUrl,
      (r'.withIsActive b).isActive⟩, s', ?_, ?_, ?_⟩
    · simp only [updateUrlStatus, heq]
    · simpa [UrlRecord.withIsActive] using hm.1
    · simp [UrlRecord.withIsActive]
  · intro hall
    have hnone :
        findOneAndUpdateIsActive ⟨some code, none, none, none⟩ b s =
          (none, s) := by
      apply findOneAndUpdateIsActive_none
      intro r hr
      rw [hookedMatches_codeOnly]
      by_cases hc : r.shortCode == code
      · cases hai : r.isActive
        · simp
        · exact absurd ⟨beq_iff_eq.mp hc, hai⟩ (hall r hr)
      · simp [hc]
    simp only [updateUrlStatus, hnone]

theorem C2_witness :
    updateUrlStatus "abc" (.str "yes") exActiveStore =
      (.validationError, exActiveStore) ∧
    (∃ rv s', updateUrlStatus "abc" (.bool false) exActiveStore =
        (.ok rv, s') ∧ rv.shortCode = "abc" ∧ rv.isActive = false) := by
  have h := C2_setActive_spec exActiveStore "abc" false (.str "yes")
    (by decide)
  exact ⟨h.1, h.2.1 ⟨⟨"http://a.com", "abc", 30, 5000, 0, 0, none, true⟩,
    by decide, rfl, rfl⟩⟩

/-! Claim C3. -/

/-- Claim C3 as stated is false: an inactive record with code "abc" is
stored, yet `remove("abc")` answers not-found and deletes nothing — the
pre-find hook also filters `findOneAndDelete`, so deletion is not
unconditional on the record's active state. -/
theorem C3_counterexample :
    deleteUrl "abc" inactiveStore = (.notFound, inactiveStore) ∧
    inactiveStore.any (fun r => r.shortCode == "abc") = true := by decide

/-- Claim C3 (amended): `remove(shortCode)` deletes the record regardless of
its EXPIRY state whenever an ACTIVE record with that code is present,
returning the deleted record's summary; it answers not-found whenever no
active record holds the code — in particular an inactive record is invisible
to deletion. -/
theorem C3_delete_spec (s : Store) (code : String) :
    ((∃ r ∈ s, r.shortCode = code ∧ r.isActive = true) →
      ∃ r s', deleteUrl code s =
          (.ok ⟨r.shortCode, r.originalUrl, r.createdAt, r.clicks⟩, s') ∧
        r ∈ s ∧ r.shortCode = code ∧ s'.length + 1 = s.length) ∧
    ((∀ r ∈ s, ¬(r.shortCode = code ∧ r.isActive = true)) →
      deleteUrl code s = (.notFound, s)) := by
  constructor
  · rintro ⟨r, hr, hc, ha⟩
    obtain ⟨r', s', heq, hrm, hm, hlen⟩ := findOneAndDelete_found
      ⟨some code, none, none, none⟩ s
      ⟨r, hr, by simp [hookedMatches_codeOnly, hc, ha]⟩
    simp only [hookedMatches_codeOnly, Bool.and_eq_true, beq_iff_eq] at hm
    exact ⟨r', s', by simp only [deleteUrl, heq], hrm, hm.1, hlen⟩
  · intro hall
    have hnone :
        findOneAndDelete ⟨some code, none, none, none⟩ s = (none, s) := by
      apply findOneAndDelete_none
      intro r hr
      rw [hookedMatches_codeOnly]
      by_cases hc : r.shortCode == code
      · cases hai : r.isActive
        · simp
        · exact absurd ⟨beq_iff_eq.mp hc, hai⟩ (hall r hr)
      · simp [hc]
    simp only [deleteUrl, hnone]

theorem C3_witness :
    ∃ r s', deleteUrl "old01" expiredActiveStore =
        (.ok ⟨r.shortCode, r.originalUrl, r.createdAt, r.clicks⟩, s') ∧
      r ∈ expiredActiveStore ∧ r.shortCode = "old01" ∧
      s'.length + 1 = expiredActiveStore.length :=
  (C3_delete_spec expiredActiveStore "old01").1
    ⟨⟨"http://old.com", "old01", 30, 100, 2, 0, some 50, true⟩,
      by decide, rfl, rfl⟩

/-! Claim C8. -/

/-- One record that is both inactive and expired at time 1000, code "abc". -/
def inactiveExpiredStore : Store :=
  [⟨"http://a.com", "abc", 30, 500, 0, 0, none, false⟩]

/-- Claim C8 as stated is false: this stored record is expired at time 1000,
yet `resolve("abc")` answers not-found rather than the expired error — the
record is also inactive, and `findByShortCode` never surfaces inactive
records, so the expiry branch is unreachable for them. -/
theorem C8_counterexample :
    redirectToUrl 1000 "abc" inactiveExpiredStore =
      (.notFound, inactiveExpiredStore) ∧
    inactiveExpiredStore.any
      (fun r => r.shortCode == "abc" && decide (r.expiry < 1000)) = true := by
  decide

/-- Claim C8 (amended): for every stored ACTIVE record that is expired,
resolve yields the expired error — an outcome distinct from not-found — and
the store is returned unchanged, so the record's click counter is not
incremented. -/
theorem C8_expired_redirect (now : Nat) (code : String) (s : Store)
    (r : UrlRecord) (h : findByShortCode code s = some r)
    (hexp : r.expiry < now) :
    redirectToUrl now code s = (.expired r.expiry, s) ∧
    ∀ e, (RedirectResult.expired e) ≠ RedirectResult.notFound := by
  constructor
  · simp [redirectToUrl, h, UrlRecord.isExpired, hexp]
  · intro e he
    cases he

theorem C8_witness :
    redirectToUrl 1000 "old01" expiredActiveStore =
      (.expired 100, expiredActiveStore) ∧
    (RedirectResult.expired 100) ≠ RedirectResult.notFound := by
  have h := C8_expired_redirect 1000 "old01" expiredActiveStore
    ⟨"http://old.com", "old01", 30, 100, 2, 0, some 50, true⟩
    (by decide) (by decide)
  exact ⟨h.1, h.2 100⟩

/-! Claim C10. -/

lemma mem_insertSorted (le : UrlRecord → UrlRecord → Bool) (x y : UrlRecord)
    (l : Store) (h : y ∈ insertSorted le x l) : y = x ∨ y ∈ l := by
  induction l with
  | nil =>
    simp only [insertSorted, List.mem_singleton] at h
    exact Or.inl h
  | cons z zs ih =>
    simp only [insertSorted] at h
    by_cases hle : le x z = true
    · rw [if_pos hle] at h
      exact List.mem_cons.mp h
    · rw [if_neg hle] at h
      rcases List.mem_cons.mp h with rfl | h'
      · exact Or.inr (by simp)
      · rcases ih h' with rfl | hh
        · exact Or.inl rfl
        · exact Or.inr (by simp [hh])

lemma mem_sortStore (le : UrlRecord → UrlRecord → Bool) (y : UrlRecord)
    (l : Store) (h : y ∈ sortStore le l) : y ∈ l := by
  induction l with
  | nil => simp [sortStore] at h
  | cons z zs ih =>
    rcases mem_insertSorted le z y _ (by simpa [sortStore] using h) with
      rfl | h'
    · simp
    · simp [ih h']

/-- One inactive, unexpired-at-1000 record under code "abc". -/
def inactiveFreshStore : Store :=
  [⟨"http://a.com", "abc", 30, 2000, 0, 0, none, false⟩]

/-- The controller's default comparator: `createdAt` descending. -/
def createdAtDesc (a b : UrlRecord) : Bool :=
  decide (b.createdAt ≤ a.createdAt)

/-- Claim C10 as stated is false on its count clause: with one inactive,
unexpired record, the listing returns no records, yet `totalItems` is 1 —
`countDocuments` is not a find-family operation, so the `pre(/^find/)` hook
does not filter the total count. -/
theorem C10_counterexample :
    (getAllUrls 1000 1 10 createdAtDesc false inactiveFreshStore).urls = [] ∧
    (getAllUrls 1000 1 10 createdAtDesc false
      inactiveFreshStore).pagination.totalItems = 1 ∧
    inactiveFreshStore.any (fun r => !r.isActive) = true := by decide

/-- Claim C10 (amended): the listing never returns a record whose `isActive`
is false, for every combination of page, limit, sort comparator and
includeExpired — the pre-find hook injects the inactive-record filter into
the `find` — but the total count comes from `countDocuments`, which the hook
does not intercept, so inactive records can still be counted. -/
theorem C10_list_active_only (now page limit : Nat)
    (le : UrlRecord → UrlRecord → Bool) (includeExpired : Bool) (s : Store)
    (r : UrlRecord)
    (hr : r ∈ (getAllUrls now page limit le includeExpired s).urls) :
    r.isActive = true := by
  simp only [getAllUrls] at hr
  have h1 : r ∈ sortStore le (findMany
      (if includeExpired then ⟨none, none, none, none⟩
        else ⟨none, none, some now, none⟩) s) :=
    List.drop_subset _ _ (List.take_subset _ _ hr)
  have h2 := mem_sortStore le r _ h1
  rcases List.mem_filter.mp h2 with ⟨-, hm⟩
  cases hia : r.isActive
  · exfalso
    cases includeExpired <;>
      simp [hookedMatches, queryMatches, hia] at hm
  · rfl

/-- One active, unexpired-at-1000 record under code "ccc". -/
def activeFreshStore : Store :=
  [⟨"http://c.com", "ccc", 30, 2000, 0, 5, none, true⟩]

theorem C10_witness :
    (⟨"http://c.com", "ccc", 30, 2000, 0, 5, none, true⟩ :
      UrlRecord).isActive = true :=
  C10_list_active_only 1000 1 10 createdAtDesc false activeFreshStore _
    (by decide)

/-! Claim C4. -/

/-- One inactive record holding code "abc12". -/
def inactiveCodeStore : Store :=
  [⟨"http://a.com", "abc12", 30, 5000, 0, 0, none, false⟩]

/-- Claim C4 as stated is false: with only an INACTIVE record under "abc12"
stored and a generator that always proposes "abc12", generation returns
"abc12" — a code equal to a stored record's code — because the collision
probe `findByShortCode` only sees active records; the subsequent save then
fails on the unique index (the 409 catch branch) with the store unchanged. -/
theorem C4_counterexample :
    generateUniqueCode (fun _ => "abc12") inactiveCodeStore =
      some "abc12" ∧
    inactiveCodeStore.any (fun r => r.shortCode == "abc12") = true ∧
    createShortUrl 1000 (fun _ => "abc12") "http://sh.rt"
      ⟨some "http://new.com", none, none⟩ inactiveCodeStore =
      (.duplicateKey, inactiveCodeStore) := by decide

/-- Claim C4 (amended): in the no-customCode path, a generated candidate is
treated as colliding exactly when an ACTIVE record holds it (regardless of
expiry); generation never returns a code held by an active record, but it can
return a code held by an inactive one. -/
theorem C4_generation_avoids_active (gen : Nat → String) (s : Store)
    (c : String) (h : generateUniqueCode gen s = some c) :
    findByShortCode c s = none ∧
    ∀ r ∈ s, r.isActive = true → r.shortCode ≠ c := by
  have hn := generateUniqueCodeGo_fresh gen s 10 0 c h
  refine ⟨hn, ?_⟩
  intro r hr ha hc
  have hfalse := (findByShortCode_eq_none c s).mp hn r hr
  rw [hc, ha] at hfalse
  simp at hfalse

theorem C4_witness :
    findByShortCode "zzz99" expiredActiveStore = none :=
  (C4_generation_avoids_active (fun _ => "zzz99") expiredActiveStore "zzz99"
    (by decide)).1

/-! Branch-reduction lemmas for the shortening controller. -/

lemma findOne_mem (q : Query) (s : Store) (r : UrlRecord)
    (h : findOne q s = some r) : r ∈ s ∧ hookedMatches q r = true := by
  unfold findOne at h
  exact ⟨List.mem_of_find?_eq_some h, List.find?_some h⟩

/-- With validation passing and every record matching the sanitized URL
failing `isValidForRedirect`, `createShortUrl` reaches the creation path. -/
lemma createShortUrl_nodedup (now : Nat) (gen : Nat → String) (base : String)
    (body : ShortenBody) (s : Store)
    (hv : (validateShortenRequest body).isValid = true)
    (hded : ∀ r ∈ s, r.originalUrl = sanitizeUrl (body.url.getD "") →
      r.isValidForRedirect now = false) :
    createShortUrl now gen base body s = createShortUrlCreate now gen body s := by
  simp only [createShortUrl, hv, Bool.not_true, Bool.false_eq_true, if_false]
  cases hfo : findOne ⟨none, some (sanitizeUrl (body.url.getD "")), none, none⟩ s with
  | none => rfl
  | some ex =>
    obtain ⟨hmem, hp⟩ := findOne_mem _ _ _ hfo
    rw [hookedMatches_byUrl] at hp
    simp only [Bool.and_eq_true, beq_iff_eq] at hp
    simp [hded ex hmem hp.1]

/-- With no custom shortcode, the creation path is the generation path. -/
lemma createShortUrlCreate_gen (now : Nat) (gen : Nat → String)
    (body : ShortenBody) (s : Store) (hsc : body.shortcode = none) :
    createShortUrlCreate now gen body s =
      createShortUrlGenerate now gen body s := by
  simp only [createShortUrlCreate, hsc]

/-- Persisting a code some record already holds fails on the unique index
and surfaces as the duplicate-key conflict, leaving the store unchanged. -/
lemma persistNewUrl_duplicate (now : Nat) (body : ShortenBody) (sc : String)
    (s : Store)
    (hschema : schemaValidates (newUrlRecord now body sc) = true)
    (hdup : s.any (fun x => x.shortCode == sc) = true) :
    persistNewUrl now body sc s = (.duplicateKey, s) := by
  have hc : (newUrlRecord now body sc).shortCode = sc := rfl
  simp only [persistNewUrl, saveRecord, hschema, Bool.not_true,
    Bool.false_eq_true, if_false, hc, hdup, if_true]

/-- Persisting a globally fresh, schema-valid code succeeds and appends the
new record. -/
lemma persistNewUrl_ok (now : Nat) (body : ShortenBody) (sc : String)
    (s : Store)
    (hschema : schemaValidates (newUrlRecord now body sc) = true)
    (hfresh : ∀ r ∈ s, r.shortCode ≠ sc) :
    persistNewUrl now body sc s =
      (.created sc (sanitizeUrl (body.url.getD ""))
        (calculateExpiryDate now (bodyValidity body)) (bodyValidity body),
       s ++ [newUrlRecord now body sc]) := by
  have hc : (newUrlRecord now body sc).shortCode = sc := rfl
  have hany : s.any (fun x => x.shortCode == sc) = false := by
    rw [List.any_eq_false]
    intro x hx
    simp only [bne_iff_ne, ne_eq, beq_iff_eq]
    exact hfresh x hx
  simp only [persistNewUrl, saveRecord, hschema, Bool.not_true,
    Bool.false_eq_true, if_false, hc, hany]

/-- When the generator's first candidate draws no active collision, the
retry loop returns it on the first attempt. -/
lemma generateUniqueCode_first (gen : Nat → String) (s : Store)
    (h : findByShortCode (gen 1) s = none) :
    generateUniqueCode gen s = some (gen 1) := by
  have h0 : generateUniqueCode gen s =
      if (findByShortCode (gen 1) s).isSome then
        generateUniqueCodeGo gen s 1 9
      else some (gen 1) := rfl
  rw [h0, h]
  simp

/-! Claim C6. -/

/-- Claim C6 (confirmed): the unique-code generation loop inspects at most
its first ten candidates (generators agreeing on attempts 1..10 give the same
outcome), and when the loop throws, the request fails with the
generation-exhaustion server error with the store unchanged — no record is
persisted. -/
theorem C6_generation_bound (now : Nat) (gen : Nat → String) (base : String)
    (body : ShortenBody) (s : Store)
    (hv : (validateShortenRequest body).isValid = true)
    (hded : ∀ r ∈ s, r.originalUrl = sanitizeUrl (body.url.getD "") →
      r.isValidForRedirect now = false)
    (hsc : body.shortcode = none)
    (hgen : generateUniqueCode gen s = none) :
    (∀ gen', (∀ i, 1 ≤ i → i ≤ 10 → gen i = gen' i) →
      generateUniqueCode gen s = generateUniqueCode gen' s) ∧
    createShortUrl now gen base body s = (.generationExhausted, s) := by
  constructor
  · intro gen' hg
    exact generateUniqueCodeGo_congr gen gen' s hg 10 0 rfl
  · rw [createShortUrl_nodedup now gen base body s hv hded,
      createShortUrlCreate_gen now gen body s hsc]
    simp only [createShortUrlGenerate, hgen]

/-- One active record under code "dup01": every identical candidate collides. -/
def dupStore : Store :=
  [⟨"http://d.com", "dup01", 30, 5000, 0, 0, none, true⟩]

theorem C6_witness :
    generateUniqueCode (fun _ => "dup01") dupStore =
      generateUniqueCode (fun i => if i ≤ 10 then "dup01" else "zzzzz")
        dupStore ∧
    createShortUrl 1000 (fun _ => "dup01") "http://sh.rt"
      ⟨some "http://new.com", none, none⟩ dupStore =
      (.generationExhausted, dupStore) := by
  have h := C6_generation_bound 1000 (fun _ => "dup01") "http://sh.rt"
    ⟨some "http://new.com", none, none⟩ dupStore (by decide) (by decide)
    rfl (by decide)
  exact ⟨h.1 _ (fun i h1 h2 => by simp [h2]), h.2⟩

/-! Claim C5. -/

/-- A store with one ACTIVE, unexpired-at-1000 record under code "abcde". -/
def validHolderStore : Store :=
  [⟨"http://v.com", "abcde", 30, 5000, 0, 0, none, true⟩]

/-- A store with one active but expired-at-1000 record under code "abcde". -/
def expiredHolderStore : Store :=
  [⟨"http://v.com", "abcde", 30, 100, 0, 0, none, true⟩]

/-- The shorten request reusing custom code "abcde" for a fresh URL. -/
def customBody : ShortenBody :=
  ⟨some "http://new.com", none, some "abcde"⟩

/-- Claim C5 as stated is false: the only record holding "abcde" is expired,
so by the claim the fresh record should be created — but the save hits the
unique index on `shortCode` and the request is rejected with the
duplicate-key conflict, creating nothing. -/
theorem C5_counterexample :
    createShortUrl 1000 (fun _ => "gen00") "http://sh.rt" customBody
      expiredHolderStore = (.duplicateKey, expiredHolderStore) ∧
    expiredHolderStore.any (fun r => r.shortCode == "abcde" &&
      !(r.isValidForRedirect 1000)) = true := by decide

/-- Claim C5 (amended): with a custom code whose unique holder is stored,
the request is rejected either way — with the custom-code conflict (400) when
the holder is valid-for-redirect, and otherwise past the app-level check with
the store-level duplicate-key conflict (409); an expired or inactive holder
therefore still blocks creation, only through a different error. -/
theorem C5_custom_code_conflict (now : Nat) (gen : Nat → String)
    (base : String) (body : ShortenBody) (s : Store) (u sc : String)
    (hu : body.url = some u) (hsc : body.shortcode = some sc)
    (hscne : sc ≠ "")
    (hv : (validateShortenRequest body).isValid = true)
    (hU : codesUnique s)
    (hded : ∀ r ∈ s, r.originalUrl = sanitizeUrl u →
      r.isValidForRedirect now = false)
    (r0 : UrlRecord) (hr0 : r0 ∈ s) (hc0 : r0.shortCode = sc)
    (hsanit : schemaUrlOk (sanitizeUrl u) = true)
    (hulen : (sanitizeUrl u).length ≤ 2048) :
    (r0.isValidForRedirect now = true →
      createShortUrl now gen base body s = (.customCodeConflict, s)) ∧
    (r0.isValidForRedirect now = false →
      createShortUrl now gen base body s = (.duplicateKey, s)) := by
  have hgd : body.url.getD "" = u := by rw [hu]; rfl
  have hded' : ∀ r ∈ s, r.originalUrl = sanitizeUrl (body.url.getD "") →
      r.isValidForRedirect now = false := by rw [hgd]; exact hded
  have hred := createShortUrl_nodedup now gen base body s hv hded'
  have hscbeq : (sc == "") = false := beq_eq_false_iff_ne.mpr hscne
  have hlen := isValidShortCode_length sc (validate_shortcode_ok body sc hsc hv)
  have hschema : schemaValidates (newUrlRecord now body sc) = true := by
    apply schemaValidates_newUrlRecord now body sc _ _ hlen.1 hlen.2 hv
    · rw [hgd]; exact hsanit
    · rw [hgd]; exact hulen
  have hdup : s.any (fun x => x.shortCode == sc) = true := by
    rw [List.any_eq_true]
    exact ⟨r0, hr0, by simp [hc0]⟩
  constructor
  · intro hvalid
    have hact : r0.isActive = true := by
      have := hvalid
      unfold UrlRecord.isValidForRedirect at this
      exact (Bool.and_eq_true _ _ |>.mp this).1
    have hsome := findByShortCode_isSome sc s r0 hr0 hc0 hact
    obtain ⟨ex, hex⟩ := Option.isSome_iff_exists.mp hsome
    obtain ⟨hexmem, hexc, -⟩ := findByShortCode_eq_some sc s ex hex
    have hex0 : ex = r0 :=
      List.inj_on_of_nodup_map hU hexmem hr0 (by rw [hexc, hc0])
    rw [hred]
    simp only [createShortUrlCreate, hsc, hscbeq, Bool.false_eq_true,
      if_false, hex, hex0, hvalid, if_true]
  · intro hinvalid
    rw [hred]
    simp only [createShortUrlCreate, hsc, hscbeq, Bool.false_eq_true, if_false]
    cases hfb : findByShortCode sc s with
    | none => exact persistNewUrl_duplicate now body sc s hschema hdup
    | some ex =>
      obtain ⟨hexmem, hexc, -⟩ := findByShortCode_eq_some sc s ex hfb
      have hex0 : ex = r0 :=
        List.inj_on_of_nodup_map hU hexmem hr0 (by rw [hexc, hc0])
      rw [hex0]
      simp only [hinvalid, Bool.false_eq_true, if_false]
      exact persistNewUrl_duplicate now body sc s hschema hdup

theorem C5_witness :
    createShortUrl 1000 (fun _ => "gen00") "http://sh.rt" customBody
      validHolderStore = (.customCodeConflict, validHolderStore) ∧
    createShortUrl 1000 (fun _ => "gen00") "http://sh.rt" customBody
      expiredHolderStore = (.duplicateKey, expiredHolderStore) := by
  have h1 := C5_custom_code_conflict 1000 (fun _ => "gen00") "http://sh.rt"
    customBody validHolderStore "http://new.com" "abcde" rfl rfl (by decide)
    (by decide) (by decide) (by decide)
    ⟨"http://v.com", "abcde", 30, 5000, 0, 0, none, true⟩ (by decide) rfl
    (by decide) (by decide)
  have h2 := C5_custom_code_conflict 1000 (fun _ => "gen00") "http://sh.rt"
    customBody expiredHolderStore "http://new.com" "abcde" rfl rfl (by decide)
    (by decide) (by decide) (by decide)
    ⟨"http://v.com", "abcde", 30, 100, 0, 0, none, true⟩ (by decide) rfl
    (by decide) (by decide)
  exact ⟨h1.1 (by decide), h2.2 (by decide)⟩

/-! Claim C7. -/

/-- An expired-but-active record already mapping "http://example.com". -/
def shadowStore : Store :=
  [⟨"http://example.com", "old01", 30, 100, 0, 0, none, true⟩]

/-- The shorten request for "http://example.com" with all defaults. -/
def exampleBody : ShortenBody :=
  ⟨some "http://example.com", none, none⟩

/-- Claim C7 as stated is false: with an older expired-but-active record for
the same URL in the store, `findOne` returns that record first in natural
order, its `isValidForRedirect` check fails, and BOTH calls skip dedup and
create records — so the second call returns a different code and creates a
third record even though the first call's record is still active and
unexpired. -/
theorem C7_counterexample :
    (createShortUrl 1000 (fun _ => "aaa01") "http://sh.rt" exampleBody
      shadowStore).1 = .created "aaa01" "http://example.com" 1801000 30 ∧
    ((createShortUrl 1000 (fun _ => "aaa01") "http://sh.rt" exampleBody
      shadowStore).2).any
      (fun r => r.shortCode == "aaa01" && r.isValidForRedirect 1000) = true ∧
    (createShortUrl 1000 (fun _ => "bbb02") "http://sh.rt" exampleBody
      ((createShortUrl 1000 (fun _ => "aaa01") "http://sh.rt" exampleBody
        shadowStore).2)).1 = .created "bbb02" "http://example.com" 1801000 30 ∧
    ((createShortUrl 1000 (fun _ => "bbb02") "http://sh.rt" exampleBody
      ((createShortUrl 1000 (fun _ => "aaa01") "http://sh.rt" exampleBody
        shadowStore).2)).2).length = 3 := by decide

/-- Claim C7 (amended): when no record in the store carries the sanitized
URL, the first call creates a record (here via a globally fresh first
generator candidate), and a second call within that record's validity
returns the same shortCode through dedup and creates no new record. -/
theorem C7_dedup_idempotent (now1 now2 : Nat) (gen1 gen2 : Nat → String)
    (base : String) (body : ShortenBody) (u : String) (s : Store)
    (hu : body.url = some u)
    (hv : (validateShortenRequest body).isValid = true)
    (hsc : body.shortcode = none)
    (hclean : ∀ r ∈ s, r.originalUrl ≠ sanitizeUrl u)
    (hfresh : ∀ r ∈ s, r.shortCode ≠ gen1 1)
    (hclen3 : 3 ≤ (gen1 1).length) (hclen20 : (gen1 1).length ≤ 20)
    (hsanit : schemaUrlOk (sanitizeUrl u) = true)
    (hulen : (sanitizeUrl u).length ≤ 2048)
    (hexp : now2 ≤ calculateExpiryDate now1 (bodyValidity body)) :
    createShortUrl now1 gen1 base body s =
      (.created (gen1 1) (sanitizeUrl u)
        (calculateExpiryDate now1 (bodyValidity body)) (bodyValidity body),
       s ++ [newUrlRecord now1 body (gen1 1)]) ∧
    createShortUrl now2 gen2 base body
      (s ++ [newUrlRecord now1 body (gen1 1)]) =
      (.dedup (generateShortUrl base (gen1 1))
        (calculateExpiryDate now1 (bodyValidity body)),
       s ++ [newUrlRecord now1 body (gen1 1)]) := by
  have hgd : body.url.getD "" = u := by rw [hu]; rfl
  have hded' : ∀ r ∈ s, r.originalUrl = sanitizeUrl (body.url.getD "") →
      r.isValidForRedirect now1 = false := by
    rw [hgd]
    exact fun r hr hurl => absurd hurl (hclean r hr)
  have hnf : findByShortCode (gen1 1) s = none := by
    rw [findByShortCode_eq_none]
    intro r hr
    have := hfresh r hr
    simp only [Bool.and_eq_false_iff]
    left
    simpa using this
  have hschema : schemaValidates (newUrlRecord now1 body (gen1 1)) = true := by
    apply schemaValidates_newUrlRecord now1 body (gen1 1) _ _ hclen3 hclen20 hv
    · rw [hgd]; exact hsanit
    · rw [hgd]; exact hulen
  have hcall1 : createShortUrl now1 gen1 base body s =
      (.created (gen1 1) (sanitizeUrl u)
        (calculateExpiryDate now1 (bodyValidity body)) (bodyValidity body),
       s ++ [newUrlRecord now1 body (gen1 1)]) := by
    rw [createShortUrl_nodedup now1 gen1 base body s hv hded',
      createShortUrlCreate_gen now1 gen1 body s hsc]
    simp only [createShortUrlGenerate, generateUniqueCode_first gen1 s hnf]
    rw [persistNewUrl_ok now1 body (gen1 1) s hschema hfresh, hgd]
  refine ⟨hcall1, ?_⟩
  have hnewmatch : hookedMatches
      ⟨none, some (sanitizeUrl (body.url.getD "")), none, none⟩
      (newUrlRecord now1 body (gen1 1)) = true := by
    rw [hookedMatches_byUrl]
    simp [newUrlRecord]
  have hfo : findOne ⟨none, some (sanitizeUrl (body.url.getD "")), none, none⟩
      (s ++ [newUrlRecord now1 body (gen1 1)]) =
      some (newUrlRecord now1 body (gen1 1)) := by
    unfold findOne
    rw [List.find?_append]
    have hfirst : s.find? (hookedMatches
        ⟨none, some (sanitizeUrl (body.url.getD "")), none, none⟩) = none := by
      rw [List.find?_eq_none]
      intro r hr
      rw [hookedMatches_byUrl]
      simp only [Bool.and_eq_true, beq_iff_eq, not_and]
      intro hurl
      exact absurd (hgd ▸ hurl) (hclean r hr)
    rw [hfirst]
    simp [List.find?, hnewmatch]
  have hvalid2 : (newUrlRecord now1 body (gen1 1)).isValidForRedirect now2 =
      true := by
    have hlt : ¬ (calculateExpiryDate now1 (bodyValidity body) < now2) :=
      Nat.not_lt.mpr hexp
    simp [UrlRecord.isValidForRedirect, UrlRecord.isExpired, newUrlRecord, hlt]
  simp only [createShortUrl, hv, Bool.not_true, Bool.false_eq_true, if_false,
    hfo, hvalid2, if_true]
  have hcode : (newUrlRecord now1 body (gen1 1)).shortCode = gen1 1 := rfl
  have hexpiry : (newUrlRecord now1 body (gen1 1)).expiry =
      calculateExpiryDate now1 (bodyValidity body) := rfl
  rw [hcode, hexpiry]

theorem C7_witness :
    createShortUrl 0 (fun _ => "aaa01") "http://sh.rt" exampleBody [] =
      (.created "aaa01" "http://example.com" 1800000 30,
       [⟨"http://example.com", "aaa01", 30, 1800000, 0, 0, none, true⟩]) ∧
    createShortUrl 1000 (fun _ => "bbb02") "http://sh.rt" exampleBody
      [⟨"http://example.com", "aaa01", 30, 1800000, 0, 0, none, true⟩] =
      (.dedup (generateShortUrl "http://sh.rt" "aaa01") 1800000,
       [⟨"http://example.com", "aaa01", 30, 1800000, 0, 0, none, true⟩]) :=
  C7_dedup_idempotent 0 1000 (fun _ => "aaa01") (fun _ => "bbb02")
    "http://sh.rt" exampleBody "http://example.com" [] rfl (by decide) rfl
    (by decide) (by decide) (by decide) (by decide) (by decide) (by decide)
    (by decide)

/-! Claim C9. -/

/-- Claim C9 (confirmed): sanitization trims surrounding whitespace and
prepends "http://" exactly when the trimmed input lacks an http/https scheme;
an input that already has a scheme is stored unchanged apart from trimming,
and shortening "example.com/path" stores originalUrl
"http://example.com/path". -/
theorem C9_sanitizeUrl_spec (u : String) (hne : u ≠ "") :
    (startsWithHttpScheme (jsTrim u) = true → sanitizeUrl u = jsTrim u) ∧
    (startsWithHttpScheme (jsTrim u) = false →
      sanitizeUrl u = "http://" ++ jsTrim u) ∧
    (createShortUrl 1000 (fun _ => "abc12") "http://sh.rt"
      ⟨some "example.com/path", none, none⟩ []).2 =
      [⟨"http://example.com/path", "abc12", 30, 1801000, 0, 1000, none,
        true⟩] := by
  have hbe : (u == "") = false := beq_eq_false_iff_ne.mpr hne
  refine ⟨?_, ?_, by decide⟩
  · intro hs
    simp [sanitizeUrl, hbe, hs]
  · intro hs
    simp [sanitizeUrl, hbe, hs]

theorem C9_witness :
    sanitizeUrl " HTTPS://Ex.com " = "HTTPS://Ex.com" ∧
    sanitizeUrl "example.com/path" = "http://example.com/path" := by
  have h1 := C9_sanitizeUrl_spec " HTTPS://Ex.com " (by decide)
  have h2 := C9_sanitizeUrl_spec "example.com/path" (by decide)
  exact ⟨h1.1 (by decide), h2.2.1 (by decide)⟩

end UrlShortener
